import Mathlib

/-!
Verification of the `wolfsoftware.get-aws-regions` package
(`wolfsoftware/get_aws_regions/functions.py`).

The module is a one-shot orchestration: fetch raw region records from the
EC2 collaborator, apply include/exclude filtering and sort by region code,
optionally resolve a human-readable location for each code through the SSM
collaborator, and return either plain codes or enriched records.

Embedding conventions:
  * Python dicts `{"RegionName": ..., "OptInStatus": ...}` become the
    `Region` structure; the `GeographicalLocation` key, attached later by
    `get_region_list`, is an `Option String` field (`none` = key absent).
  * The boto3 collaborators (`ec2.describe_regions`, `ssm.get_parameter`)
    are parameters of the embedded functions; an exception raised by a
    collaborator is a `PyErr` value carrying its `str(e)` text and whether
    it is a `BotoCoreError`/`ClientError` or some other exception class.
  * A raised `RegionListingError` becomes the `.error` branch of an
    `Except String _` result, the `String` being the exception message.
  * `profile_name` only selects which boto3 session backs the
    collaborators, so it is absorbed into the collaborator parameters.
  * Python's `list.sort` is a stable sort on the key
    `x['RegionName']`; insertion sort on the same key is the same stable
    sort, so the two agree as functions.  The string comparison is
    lexicographic on the character sequence, embedded as `≤` on
    `String.data` (propositionally equal to `≤` on `String` by
    `String.le_iff_toList_le`).
-/

namespace GetAwsRegions

/-- A region record: a Python dict with keys `RegionName` and `OptInStatus`,
plus the `GeographicalLocation` key that `get_region_list` attaches when
`details=True` (`none` means the key is absent from the dict). -/
structure Region where
  RegionName : String
  OptInStatus : String
  GeographicalLocation : Option String
deriving DecidableEq, Repr

/-- An exception raised by a boto3 collaborator call: either a
`BotoCoreError`/`ClientError` (caught by the first `except` clause of the
source) or any other exception class (caught by the second), carrying the
`str(e)` text in both cases. -/
inductive PyErr where
  | botoErr (msg : String)
  | otherErr (msg : String)
deriving DecidableEq, Repr

/-- The `str(e)` text of a collaborator exception. -/
def PyErr.msg : PyErr → String
  | .botoErr s => s
  | .otherErr s => s

/-- The list comprehension of `_fetch_all_regions`: a fresh dict keeping
only the `RegionName` and `OptInStatus` keys of a raw response record. -/
def stripRegion (region : Region) : Region :=
  { RegionName := region.RegionName
    OptInStatus := region.OptInStatus
    GeographicalLocation := none }

/-- Embedding of `_fetch_all_regions`.  `describe` models
`ec2.describe_regions`, taking the `AllRegions` flag; only the
`RegionName` and `OptInStatus` keys are kept from each raw record.  A
`BotoCoreError`/`ClientError` and any other exception are wrapped into a
`RegionListingError` with the two distinct messages of the source. -/
def fetchAllRegions (describe : Bool → Except PyErr (List Region)) (all_regions : Bool) :
    Except String (List Region) :=
  match describe all_regions with
  | .ok response => .ok (response.map stripRegion)
  | .error (.botoErr s) => .error ("An error occurred while listing regions: " ++ s)
  | .error (.otherErr s) => .error ("An unexpected error occurred: " ++ s)

/-- Embedding of `_fetch_region_description`.  `get_parameter` models
`ssm.get_parameter`, mapping a parameter name to its value; the result is
the singleton dict `{region_name: value}` (as an association list). -/
def fetchRegionDescription (get_parameter : String → Except PyErr String)
    (region_name : String) : Except String (List (String × String)) :=
  let parameter_name : String :=
    "/aws/service/global-infrastructure/regions/" ++ region_name ++ "/longName"
  match get_parameter parameter_name with
  | .ok value => .ok [(region_name, value)]
  | .error (.botoErr s) =>
      .error ("An error occurred while retrieving geographical location for region "
        ++ region_name ++ ": " ++ s)
  | .error (.otherErr s) => .error ("An unexpected error occurred: " ++ s)

/-- Embedding of `_fetch_region_descriptions`.  The source submits one
`_fetch_region_description` task per code to a thread pool and merges each
result into a dict as the futures complete, raising a `RegionListingError`
that wraps the first failed task's message; completion order only permutes
dict-update order, which the claims do not depend on, so the loop is
embedded as a fold in list order.  The dict is an association list and a
failure discards all partial results. -/
def fetchRegionDescriptions (get_parameter : String → Except PyErr String) :
    List String → Except String (List (String × String))
  | [] => .ok []
  | region :: rest =>
    match fetchRegionDescription get_parameter region with
    | .error e =>
        .error ("An unexpected error occurred while fetching geographical locations for "
          ++ region ++ ": " ++ e)
    | .ok result =>
      match fetchRegionDescriptions get_parameter rest with
      | .error e => .error e
      | .ok descriptions => .ok (result ++ descriptions)

/-- The sort key of `regions.sort(key=lambda x: x['RegionName'])`:
lexicographic comparison of the region codes' character sequences. -/
def regionKeyLe (a b : Region) : Prop :=
  a.RegionName.data ≤ b.RegionName.data

instance : DecidableRel regionKeyLe := fun a b =>
  inferInstanceAs (Decidable (a.RegionName.data ≤ b.RegionName.data))

instance : IsTotal Region regionKeyLe :=
  ⟨fun a b => le_total a.RegionName.data b.RegionName.data⟩

instance : IsTrans Region regionKeyLe :=
  ⟨fun _ _ _ h1 h2 => le_trans h1 h2⟩

/-- Embedding of `regions.sort(key=lambda x: x['RegionName'])` as a stable
sort by region code (see the module docstring). -/
def sortRegions (regions : List Region) : List Region :=
  List.insertionSort regionKeyLe regions

/-- Embedding of `_apply_region_filters` as a value-level function: keep
records whose code is in `include_list` (when given), then drop records
whose code is in `exclude_list` (when given), then sort by code.
Python's `in` on a list of strings is exactly list membership. -/
def applyRegionFilters (regions : List Region)
    (include_list : Option (List String)) (exclude_list : Option (List String)) :
    List Region :=
  let regions1 : List Region :=
    match include_list with
    | some inc => regions.filter fun region => decide (region.RegionName ∈ inc)
    | none => regions
  let regions2 : List Region :=
    match exclude_list with
    | some exc => regions1.filter fun region => decide (region.RegionName ∉ exc)
    | none => regions1
  sortRegions regions2

/-- State-passing embedding of `_apply_region_filters` that also tracks the
contents of the caller's argument list after the call.  In the source, each
of the two filter branches rebinds the local `regions` to a fresh list, but
`regions.sort(...)` sorts the current list in place; so when both filter
lists are `None` the caller's list object itself is sorted, and otherwise
it is left untouched.  The first component is the returned list, the second
the caller's list after the call. -/
def applyRegionFiltersEff (regions : List Region)
    (include_list : Option (List String)) (exclude_list : Option (List String)) :
    List Region × List Region :=
  match include_list, exclude_list with
  | none, none => (sortRegions regions, sortRegions regions)
  | _, _ => (applyRegionFilters regions include_list exclude_list, regions)

/-- The two shapes `get_region_list` can return: enriched records
(`details=True`) or plain region codes (`details=False`). -/
inductive RegionListResult where
  | records (regions : List Region)
  | names (codes : List String)
deriving DecidableEq, Repr

/-- The enrichment loop of `get_region_list` (`details=True` branch): each
filtered record gets `region['GeographicalLocation'] =
region_descriptions.get(region['RegionName'], "Unknown")`. -/
def enrichRegions (filtered_regions : List Region)
    (region_descriptions : List (String × String)) : List Region :=
  filtered_regions.map fun region =>
    { region with
      GeographicalLocation :=
        some ((region_descriptions.lookup region.RegionName).getD "Unknown") }

/-- Embedding of `get_region_list`.  Any exception of `_fetch_all_regions`
(always a `RegionListingError`, whose `str` is its message) is re-wrapped
in a second `RegionListingError`; a failure of
`_fetch_region_descriptions` propagates unwrapped. -/
def getRegionList (describe : Bool → Except PyErr (List Region))
    (get_parameter : String → Except PyErr String)
    (include_list : Option (List String)) (exclude_list : Option (List String))
    (all_regions : Bool) (details : Bool) : Except String RegionListResult :=
  match fetchAllRegions describe all_regions with
  | .error e => .error ("An error occurred while retrieving regions: " ++ e)
  | .ok all_regions_list =>
    let filtered_regions : List Region :=
      applyRegionFilters all_regions_list include_list exclude_list
    if details then
      match fetchRegionDescriptions get_parameter
          (filtered_regions.map Region.RegionName) with
      | .error e => .error e
      | .ok region_descriptions =>
          .ok (.records (enrichRegions filtered_regions region_descriptions))
    else
      .ok (.names (filtered_regions.map Region.RegionName))

/-! Concrete fixtures, mirroring the mock data of `tests/conftest.py`. -/

/-- The `us-east-1` record of the test fixture. -/
def regionUsEast : Region := ⟨"us-east-1", "opt-in-not-required", none⟩

/-- The `us-west-1` record of the test fixture. -/
def regionUsWest : Region := ⟨"us-west-1", "opt-in-not-required", none⟩

/-- The `eu-west-1` record of the test fixture. -/
def regionEuWest : Region := ⟨"eu-west-1", "opted-in", none⟩

/-- The `mock_regions` fixture of `tests/conftest.py`. -/
def mockRegions : List Region := [regionUsEast, regionUsWest, regionEuWest]

/-- An `ec2.describe_regions` collaborator answering with `mock_regions`. -/
def mockDescribe : Bool → Except PyErr (List Region) := fun _ => .ok mockRegions

/-- An `ssm.get_parameter` collaborator answering with the
`mock_description` fixture of `tests/conftest.py`, raising `ValueError`
for unknown parameter names. -/
def mockGetParameter : String → Except PyErr String := fun name =>
  if name = "/aws/service/global-infrastructure/regions/us-east-1/longName" then
    .ok "US East (N. Virginia)"
  else if name = "/aws/service/global-infrastructure/regions/us-west-1/longName" then
    .ok "US West (N. California)"
  else if name = "/aws/service/global-infrastructure/regions/eu-west-1/longName" then
    .ok "EU West (Ireland)"
  else .error (.otherErr ("Unknown parameter name: " ++ name))

/-- The description dict produced by `_fetch_region_descriptions` on the
sorted codes of the `mock_regions` fixture. -/
def mockDescs : List (String × String) :=
  [("eu-west-1", "EU West (Ireland)"), ("us-east-1", "US East (N. Virginia)"),
   ("us-west-1", "US West (N. California)")]

/-! Helper lemmas shared by the claim theorems. -/

theorem sortRegions_perm (l : List Region) : (sortRegions l).Perm l :=
  List.perm_insertionSort regionKeyLe l

theorem sortRegions_sorted (l : List Region) : List.Sorted regionKeyLe (sortRegions l) :=
  List.sorted_insertionSort regionKeyLe l

theorem sortRegions_names_sorted (l : List Region) :
    List.Sorted (· ≤ ·) ((sortRegions l).map Region.RegionName) := by
  refine List.Pairwise.map Region.RegionName ?_ (sortRegions_sorted l)
  intro a b hab
  exact String.le_iff_toList_le.mpr hab

theorem applyRegionFilters_shape (regions : List Region)
    (include_list exclude_list : Option (List String)) :
    ∃ pre : List Region, List.Sublist pre regions ∧
      applyRegionFilters regions include_list exclude_list = sortRegions pre := by
  cases include_list with
  | none =>
    cases exclude_list with
    | none => exact ⟨regions, List.Sublist.refl regions, rfl⟩
    | some exc => exact ⟨_, List.filter_sublist regions, rfl⟩
  | some inc =>
    cases exclude_list with
    | none => exact ⟨_, List.filter_sublist regions, rfl⟩
    | some exc =>
      exact ⟨_, List.Sublist.trans (List.filter_sublist _) (List.filter_sublist regions), rfl⟩

theorem applyRegionFilters_names_sorted (regions : List Region)
    (include_list exclude_list : Option (List String)) :
    List.Sorted (· ≤ ·)
      ((applyRegionFilters regions include_list exclude_list).map Region.RegionName) := by
  obtain ⟨pre, -, heq⟩ := applyRegionFilters_shape regions include_list exclude_list
  rw [heq]
  exact sortRegions_names_sorted pre

theorem applyRegionFilters_names_nodup (regions : List Region)
    (include_list exclude_list : Option (List String))
    (h : (regions.map Region.RegionName).Nodup) :
    ((applyRegionFilters regions include_list exclude_list).map Region.RegionName).Nodup := by
  obtain ⟨pre, hsub, heq⟩ := applyRegionFilters_shape regions include_list exclude_list
  rw [heq]
  have hpre : (pre.map Region.RegionName).Nodup := h.sublist (hsub.map Region.RegionName)
  exact (((sortRegions_perm pre).map Region.RegionName).nodup_iff).mpr hpre

theorem stripRegion_names (rs : List Region) :
    ((rs.map stripRegion).map Region.RegionName) = rs.map Region.RegionName := by
  induction rs with
  | nil => rfl
  | cons r rest ih =>
    simp only [List.map_cons, List.cons.injEq] at ih ⊢
    exact ⟨rfl, ih⟩

/-! Claim theorems. -/

/-- C5: for every input region list and every include/exclude pair, the
output of `_apply_region_filters` is sorted ascending by code
(lexicographic string order), and, provided the input list has
pairwise-distinct codes, each code occurs in the output at most once. -/
theorem applyRegionFilters_sorted_and_unique (regions : List Region)
    (include_list exclude_list : Option (List String)) :
    List.Sorted (· ≤ ·)
      ((applyRegionFilters regions include_list exclude_list).map Region.RegionName) ∧
    ((regions.map Region.RegionName).Nodup →
      ((applyRegionFilters regions include_list exclude_list).map Region.RegionName).Nodup) :=
  ⟨applyRegionFilters_names_sorted regions include_list exclude_list,
   fun h => applyRegionFilters_names_nodup regions include_list exclude_list h⟩

/-- Witness for C5: the theorem applied at the conftest fixture list with an
include filter, the distinct-codes hypothesis checked by `decide`. -/
theorem applyRegionFilters_sorted_and_unique_witness :
    List.Sorted (· ≤ ·)
      ((applyRegionFilters mockRegions (some ["us-east-1", "eu-west-1"]) none).map
        Region.RegionName) ∧
    ((applyRegionFilters mockRegions (some ["us-east-1", "eu-west-1"]) none).map
      Region.RegionName).Nodup := by
  have h := applyRegionFilters_sorted_and_unique mockRegions
    (some ["us-east-1", "eu-west-1"]) none
  exact ⟨h.1, h.2 (by decide)⟩

/-- C6: for every region list and non-null include list, every record of
`_apply_region_filters(regions, include_list, None)` has its code both in
the include list and among the input codes. -/
theorem applyRegionFilters_include_subset (regions : List Region) (inc : List String)
    (r : Region) (hr : r ∈ applyRegionFilters regions (some inc) none) :
    r.RegionName ∈ inc ∧ r.RegionName ∈ regions.map Region.RegionName := by
  unfold applyRegionFilters at hr
  simp only at hr
  have hr' := (sortRegions_perm _).mem_iff.mp hr
  rw [List.mem_filter] at hr'
  exact ⟨by simpa using hr'.2, List.mem_map_of_mem Region.RegionName hr'.1⟩

/-- Witness for C6: the theorem applied to the `eu-west-1` record of the
filtered conftest fixture, the membership hypothesis checked by `decide`. -/
theorem applyRegionFilters_include_subset_witness :
    regionEuWest.RegionName ∈ ["us-east-1", "eu-west-1"] ∧
    regionEuWest.RegionName ∈ mockRegions.map Region.RegionName :=
  applyRegionFilters_include_subset mockRegions ["us-east-1", "eu-west-1"]
    regionEuWest (by decide)

/-- C7: for every region list and non-null exclude list, no record of
`_apply_region_filters(regions, None, exclude_list)` has its code in the
exclude list. -/
theorem applyRegionFilters_exclude_disjoint (regions : List Region) (exc : List String)
    (r : Region) (hr : r ∈ applyRegionFilters regions none (some exc)) :
    r.RegionName ∉ exc := by
  unfold applyRegionFilters at hr
  simp only at hr
  have hr' := (sortRegions_perm _).mem_iff.mp hr
  rw [List.mem_filter] at hr'
  simpa using hr'.2

/-- Witness for C7: the theorem applied to the `eu-west-1` record of the
exclude-filtered conftest fixture, the membership hypothesis checked by
`decide`. -/
theorem applyRegionFilters_exclude_disjoint_witness :
    regionEuWest.RegionName ∉ ["us-west-1"] :=
  applyRegionFilters_exclude_disjoint mockRegions ["us-west-1"] regionEuWest (by decide)

/-- C8: `_apply_region_filters` composes include before exclude: with both
filters given it keeps records whose code is in the include list, then
drops records whose code is in the exclude list, then sorts by code; a
non-null but empty include list yields the empty result; a `None` include
list performs no include filtering (only the exclude filter and the sort
remain). -/
theorem applyRegionFilters_compose (regions : List Region) (inc exc : List String)
    (exclude_list : Option (List String)) :
    applyRegionFilters regions (some inc) (some exc) =
      sortRegions ((regions.filter fun r => decide (r.RegionName ∈ inc)).filter
        fun r => decide (r.RegionName ∉ exc)) ∧
    applyRegionFilters regions (some []) exclude_list = [] ∧
    applyRegionFilters regions none (some exc) =
      sortRegions (regions.filter fun r => decide (r.RegionName ∉ exc)) ∧
    applyRegionFilters regions none none = sortRegions regions := by
  refine ⟨rfl, ?_, rfl, rfl⟩
  have h0 : (regions.filter fun r => decide (r.RegionName ∈ ([] : List String))) = [] :=
    List.filter_eq_nil_iff.mpr (by simp)
  cases exclude_list with
  | none => simp [applyRegionFilters, h0, sortRegions]
  | some exc2 => simp [applyRegionFilters, h0, sortRegions]

/-- C9, counterexample: `_apply_region_filters` is not free of side effects.
When both filter lists are `None`, the local name `regions` is never
rebound, so `regions.sort(...)` sorts the caller's list object in place:
for the unsorted two-element input below, the caller's list after the call
differs from the list passed in. -/
theorem applyRegionFilters_mutates_input :
    ¬ ((applyRegionFiltersEff [regionUsWest, regionEuWest] none none).2 =
      [regionUsWest, regionEuWest]) := by decide

/-- C9 as amended: `_apply_region_filters` is deterministic and its return
value is the pure filter-and-sort result; it leaves the caller's list
unchanged whenever at least one of the include/exclude lists is given, but
when both are `None` it sorts the caller's list in place, leaving a
permutation of the original elements. -/
theorem applyRegionFiltersEff_spec (regions : List Region)
    (include_list exclude_list : Option (List String)) :
    (applyRegionFiltersEff regions include_list exclude_list).1 =
      applyRegionFilters regions include_list exclude_list ∧
    ((include_list ≠ none ∨ exclude_list ≠ none) →
      (applyRegionFiltersEff regions include_list exclude_list).2 = regions) ∧
    (include_list = none → exclude_list = none →
      (applyRegionFiltersEff regions include_list exclude_list).2 = sortRegions regions ∧
      ((applyRegionFiltersEff regions include_list exclude_list).2).Perm regions) := by
  cases include_list with
  | none =>
    cases exclude_list with
    | none =>
      exact ⟨rfl, fun h => absurd h (by simp),
        fun _ _ => ⟨rfl, sortRegions_perm regions⟩⟩
    | some exc => exact ⟨rfl, fun _ => rfl, fun _ h => absurd h (by simp)⟩
  | some inc =>
    cases exclude_list with
    | none => exact ⟨rfl, fun _ => rfl, fun h => absurd h (by simp)⟩
    | some exc => exact ⟨rfl, fun _ => rfl, fun h => absurd h (by simp)⟩

/-- Witness for C9's amended theorem: applied once with an include list
(caller's list untouched) and once with both filters `None` (caller's list
sorted in place), the hypotheses discharged by `simp` and `rfl`. -/
theorem applyRegionFiltersEff_spec_witness :
    (applyRegionFiltersEff mockRegions (some ["us-east-1"]) none).2 = mockRegions ∧
    (applyRegionFiltersEff mockRegions none none).2 = sortRegions mockRegions :=
  ⟨(applyRegionFiltersEff_spec mockRegions (some ["us-east-1"]) none).2.1
      (Or.inl (by simp)),
   ((applyRegionFiltersEff_spec mockRegions none none).2.2 rfl rfl).1⟩

/-! Helper lemmas for the enrichment and description-fetching claims. -/

theorem enrichRegions_names (l : List Region) (d : List (String × String)) :
    (enrichRegions l d).map Region.RegionName = l.map Region.RegionName := by
  induction l with
  | nil => rfl
  | cons r rest ih =>
    simp only [enrichRegions, List.map_cons, List.cons.injEq] at ih ⊢
    exact ⟨trivial, ih⟩

theorem enrichRegions_optInStatus (l : List Region) (d : List (String × String)) :
    (enrichRegions l d).map Region.OptInStatus = l.map Region.OptInStatus := by
  induction l with
  | nil => rfl
  | cons r rest ih =>
    simp only [enrichRegions, List.map_cons, List.cons.injEq] at ih ⊢
    exact ⟨trivial, ih⟩

theorem mem_enrichRegions (l : List Region) (d : List (String × String)) (r : Region)
    (hr : r ∈ enrichRegions l d) :
    r.GeographicalLocation = some ((d.lookup r.RegionName).getD "Unknown") := by
  simp only [enrichRegions, List.mem_map] at hr
  obtain ⟨a, -, rfl⟩ := hr
  rfl

theorem fetchRegionDescription_ok_shape (get_parameter : String → Except PyErr String)
    (region : String) (res : List (String × String))
    (h : fetchRegionDescription get_parameter region = .ok res) :
    ∃ v, res = [(region, v)] := by
  simp only [fetchRegionDescription] at h
  split at h
  · exact ⟨_, by cases h; rfl⟩
  · cases h
  · cases h

theorem fetchRegionDescriptions_error_of_exists (get_parameter : String → Except PyErr String)
    (codes : List String)
    (h : ∃ c ∈ codes, ∃ msg, fetchRegionDescription get_parameter c = .error msg) :
    ∃ msg, fetchRegionDescriptions get_parameter codes = .error msg := by
  induction codes with
  | nil => simp at h
  | cons x rest ih =>
    obtain ⟨c, hc, msg, hmsg⟩ := h
    cases hx : fetchRegionDescription get_parameter x with
    | error e =>
      exact ⟨"An unexpected error occurred while fetching geographical locations for "
        ++ x ++ ": " ++ e, by simp [fetchRegionDescriptions, hx]⟩
    | ok res =>
      have hcrest : c ∈ rest := by
        rcases List.mem_cons.mp hc with rfl | hmem
        · rw [hx] at hmsg
          cases hmsg
        · exact hmem
      obtain ⟨msg2, hmsg2⟩ := ih ⟨c, hcrest, msg, hmsg⟩
      exact ⟨msg2, by simp [fetchRegionDescriptions, hx, hmsg2]⟩

theorem fetchRegionDescriptions_ok_of_forall (get_parameter : String → Except PyErr String)
    (codes : List String)
    (h : ∀ c ∈ codes, ∃ val, fetchRegionDescription get_parameter c = .ok val) :
    ∃ descs, fetchRegionDescriptions get_parameter codes = .ok descs ∧
      (∀ c, (descs.lookup c).isSome = true ↔ c ∈ codes) ∧
      (∀ c v, descs.lookup c = some v →
        fetchRegionDescription get_parameter c = .ok [(c, v)]) := by
  induction codes with
  | nil =>
    refine ⟨[], rfl, fun c => by simp [List.lookup], fun c v hv => ?_⟩
    simp [List.lookup] at hv
  | cons x rest ih =>
    obtain ⟨val, hval⟩ := h x (List.mem_cons_self x rest)
    obtain ⟨v, rfl⟩ := fetchRegionDescription_ok_shape get_parameter x val hval
    obtain ⟨descs, hdescs, hkeys, hvals⟩ := ih fun c hc => h c (List.mem_cons_of_mem x hc)
    refine ⟨(x, v) :: descs, by simp [fetchRegionDescriptions, hval, hdescs], ?_, ?_⟩
    · intro c
      by_cases hcx : c = x
      · subst hcx
        simp [List.lookup]
      · have hb : (c == x) = false := beq_eq_false_iff_ne.mpr hcx
        calc (List.lookup c ((x, v) :: descs)).isSome = true
            ↔ (List.lookup c descs).isSome = true := by simp [List.lookup, hb]
          _ ↔ c ∈ rest := hkeys c
          _ ↔ c ∈ x :: rest := by simp [List.mem_cons, hcx]
    · intro c v2 hv2
      by_cases hcx : c = x
      · subst hcx
        simp [List.lookup] at hv2
        subst hv2
        exact hval
      · have hb : (c == x) = false := beq_eq_false_iff_ne.mpr hcx
        have hv2' : List.lookup c descs = some v2 := by
          simpa [List.lookup, hb] using hv2
        exact hvals c v2 hv2'

/-- C1: whenever the fetch step returns a region list and the description
resolution returns a map for the filtered codes, `get_region_list` with
`details=True` returns exactly the filtered records, each carrying a
`GeographicalLocation` value equal to the resolution map's entry for that
record's code when present and to the literal `"Unknown"` when the code is
absent from the map; every returned record's `GeographicalLocation` is
non-null. -/
theorem getRegionList_details_correct
    (describe : Bool → Except PyErr (List Region))
    (get_parameter : String → Except PyErr String)
    (include_list exclude_list : Option (List String)) (all_regions : Bool)
    (rs : List Region) (descs : List (String × String))
    (hfetch : describe all_regions = .ok rs)
    (hdescs : fetchRegionDescriptions get_parameter
      ((applyRegionFilters (rs.map stripRegion) include_list exclude_list).map
        Region.RegionName) = .ok descs) :
    ∃ out : List Region,
      getRegionList describe get_parameter include_list exclude_list all_regions true =
        .ok (.records out) ∧
      out.map Region.RegionName =
        (applyRegionFilters (rs.map stripRegion) include_list exclude_list).map
          Region.RegionName ∧
      out.map Region.OptInStatus =
        (applyRegionFilters (rs.map stripRegion) include_list exclude_list).map
          Region.OptInStatus ∧
      ∀ r ∈ out,
        r.GeographicalLocation ≠ none ∧
        (∀ v, descs.lookup r.RegionName = some v → r.GeographicalLocation = some v) ∧
        (descs.lookup r.RegionName = none → r.GeographicalLocation = some "Unknown") := by
  refine ⟨enrichRegions
      (applyRegionFilters (rs.map stripRegion) include_list exclude_list) descs,
    ?_, enrichRegions_names _ _, enrichRegions_optInStatus _ _, ?_⟩
  · simp [getRegionList, fetchAllRegions, hfetch, hdescs]
  · intro r hr
    have h := mem_enrichRegions _ _ r hr
    refine ⟨by rw [h]; simp, ?_, ?_⟩
    · intro v hv
      rw [h, hv]
      rfl
    · intro hnone
      rw [h, hnone]
      rfl

/-- Witness for C1: the theorem applied to the conftest fixtures with no
filters, the two hypotheses checked by `rfl`. -/
theorem getRegionList_details_correct_witness :
    ∃ out : List Region,
      getRegionList mockDescribe mockGetParameter none none true true =
        .ok (.records out) ∧
      out.map Region.RegionName =
        (applyRegionFilters (mockRegions.map stripRegion) none none).map
          Region.RegionName ∧
      out.map Region.OptInStatus =
        (applyRegionFilters (mockRegions.map stripRegion) none none).map
          Region.OptInStatus ∧
      ∀ r ∈ out,
        r.GeographicalLocation ≠ none ∧
        (∀ v, mockDescs.lookup r.RegionName = some v → r.GeographicalLocation = some v) ∧
        (mockDescs.lookup r.RegionName = none → r.GeographicalLocation = some "Unknown") :=
  getRegionList_details_correct mockDescribe mockGetParameter none none true
    mockRegions mockDescs rfl rfl

/-- C2: whenever the fetch step returns a region list, `get_region_list`
with `details=False` returns exactly the codes of the records produced by
the filter step, sorted ascending, and these codes have no duplicates
provided the fetched codes are pairwise distinct. -/
theorem getRegionList_no_details_correct
    (describe : Bool → Except PyErr (List Region))
    (get_parameter : String → Except PyErr String)
    (include_list exclude_list : Option (List String)) (all_regions : Bool)
    (rs : List Region)
    (hfetch : describe all_regions = .ok rs) :
    getRegionList describe get_parameter include_list exclude_list all_regions false =
      .ok (.names ((applyRegionFilters (rs.map stripRegion) include_list
        exclude_list).map Region.RegionName)) ∧
    List.Sorted (· ≤ ·) ((applyRegionFilters (rs.map stripRegion) include_list
      exclude_list).map Region.RegionName) ∧
    ((rs.map Region.RegionName).Nodup →
      ((applyRegionFilters (rs.map stripRegion) include_list exclude_list).map
        Region.RegionName).Nodup) := by
  refine ⟨?_, applyRegionFilters_names_sorted _ _ _, fun h => ?_⟩
  · simp [getRegionList, fetchAllRegions, hfetch]
  · refine applyRegionFilters_names_nodup _ _ _ ?_
    rw [stripRegion_names]
    exact h

/-- Witness for C2: the theorem applied to the conftest fixtures with no
filters, the fetch and distinct-codes hypotheses checked by `rfl` and
`decide`. -/
theorem getRegionList_no_details_correct_witness :
    getRegionList mockDescribe mockGetParameter none none true false =
      .ok (.names ((applyRegionFilters (mockRegions.map stripRegion) none none).map
        Region.RegionName)) ∧
    List.Sorted (· ≤ ·) ((applyRegionFilters (mockRegions.map stripRegion) none none).map
      Region.RegionName) ∧
    ((applyRegionFilters (mockRegions.map stripRegion) none none).map
      Region.RegionName).Nodup := by
  have h := getRegionList_no_details_correct mockDescribe mockGetParameter none none true
    mockRegions rfl
  exact ⟨h.1, h.2.1, h.2.2 (by decide)⟩

/-- C3: if the region-enumeration collaborator raises any exception, then
`get_region_list`, for every combination of parameters, raises a
`RegionListingError` whose message ends with (and therefore contains) the
original exception's text, through the nested double wrapping; in
particular for `Exception("Test Exception")` the message ends with
`"Test Exception"`. -/
theorem getRegionList_error_propagation
    (describe : Bool → Except PyErr (List Region))
    (get_parameter : String → Except PyErr String)
    (include_list exclude_list : Option (List String)) (all_regions details : Bool)
    (e : PyErr) (hfetch : describe all_regions = .error e) :
    ∃ p : String,
      getRegionList describe get_parameter include_list exclude_list all_regions details =
        .error (p ++ e.msg) := by
  cases e with
  | botoErr s =>
    refine ⟨"An error occurred while retrieving regions: " ++
      "An error occurred while listing regions: ", ?_⟩
    simp only [getRegionList, fetchAllRegions, hfetch, PyErr.msg]
    rw [String.append_assoc]
  | otherErr s =>
    refine ⟨"An error occurred while retrieving regions: " ++
      "An unexpected error occurred: ", ?_⟩
    simp only [getRegionList, fetchAllRegions, hfetch, PyErr.msg]
    rw [String.append_assoc]

/-- Witness for C3: the scenario of `test_get_region_list_exceptions`, the
collaborator raising `Exception("Test Exception")`; the raised message
ends with `"Test Exception"`. -/
theorem getRegionList_error_propagation_witness :
    ∃ p : String,
      getRegionList (fun _ => .error (.otherErr "Test Exception")) mockGetParameter
        none none true false = .error (p ++ "Test Exception") :=
  getRegionList_error_propagation (fun _ => .error (.otherErr "Test Exception"))
    mockGetParameter none none true false (.otherErr "Test Exception") rfl

/-- C4: for every list of codes, if the per-code description resolution
fails for at least one code then `_fetch_region_descriptions` raises a
`RegionListingError` (so the caller never observes a partial mapping); if
every per-code resolution succeeds, it returns a mapping whose key set is
exactly the requested codes, each mapped to the display name its
resolution produced. -/
theorem fetchRegionDescriptions_all_or_nothing
    (get_parameter : String → Except PyErr String) (codes : List String) :
    ((∃ c ∈ codes, ∃ msg, fetchRegionDescription get_parameter c = .error msg) →
      ∃ msg, fetchRegionDescriptions get_parameter codes = .error msg) ∧
    ((∀ c ∈ codes, ∃ val, fetchRegionDescription get_parameter c = .ok val) →
      ∃ descs, fetchRegionDescriptions get_parameter codes = .ok descs ∧
        (∀ c, (descs.lookup c).isSome = true ↔ c ∈ codes) ∧
        (∀ c v, descs.lookup c = some v →
          fetchRegionDescription get_parameter c = .ok [(c, v)])) :=
  ⟨fun h => fetchRegionDescriptions_error_of_exists get_parameter codes h,
   fun h => fetchRegionDescriptions_ok_of_forall get_parameter codes h⟩

/-- Witness for C4: the theorem applied once to a code whose resolution
fails (whole operation fails) and once to codes whose resolutions all
succeed (complete mapping), the hypotheses discharged by `rfl` and
explicit terms. -/
theorem fetchRegionDescriptions_all_or_nothing_witness :
    (∃ msg, fetchRegionDescriptions mockGetParameter ["xx-fake-1"] = .error msg) ∧
    (∃ descs, fetchRegionDescriptions mockGetParameter ["us-east-1", "eu-west-1"] =
        .ok descs ∧
      (∀ c, (descs.lookup c).isSome = true ↔ c ∈ ["us-east-1", "eu-west-1"]) ∧
      (∀ c v, descs.lookup c = some v →
        fetchRegionDescription mockGetParameter c = .ok [(c, v)])) :=
  ⟨(fetchRegionDescriptions_all_or_nothing mockGetParameter ["xx-fake-1"]).1
      ⟨"xx-fake-1", List.mem_cons_self _ _, _, rfl⟩,
   (fetchRegionDescriptions_all_or_nothing mockGetParameter
      ["us-east-1", "eu-west-1"]).2
      (fun c hc => by
        rcases List.mem_cons.mp hc with rfl | hc2
        · exact ⟨_, rfl⟩
        · rcases List.mem_cons.mp hc2 with rfl | hc3
          · exact ⟨_, rfl⟩
          · exact absurd hc3 (List.not_mem_nil c))⟩

/-- C10: the concurrent description fetcher returns the empty mapping for
the empty code list and never raises there; consequently
`get_region_list` with `details=True` whose filters eliminate every
region returns the empty record list rather than raising. -/
theorem getRegionList_empty_filters_ok
    (describe : Bool → Except PyErr (List Region))
    (get_parameter : String → Except PyErr String)
    (include_list exclude_list : Option (List String)) (all_regions : Bool)
    (rs : List Region)
    (hfetch : describe all_regions = .ok rs)
    (hempty : applyRegionFilters (rs.map stripRegion) include_list exclude_list = []) :
    fetchRegionDescriptions get_parameter [] = .ok [] ∧
    getRegionList describe get_parameter include_list exclude_list all_regions true =
      .ok (.records []) := by
  refine ⟨rfl, ?_⟩
  simp [getRegionList, fetchAllRegions, hfetch, hempty, fetchRegionDescriptions,
    enrichRegions]

/-- Witness for C10: the theorem applied to the conftest fixtures with the
empty include list, which filters out every region; the hypotheses are
checked by `rfl` and `decide`. -/
theorem getRegionList_empty_filters_ok_witness :
    fetchRegionDescriptions mockGetParameter [] = .ok [] ∧
    getRegionList mockDescribe mockGetParameter (some []) none true true =
      .ok (.records []) :=
  getRegionList_empty_filters_ok mockDescribe mockGetParameter (some []) none true
    mockRegions rfl (by decide)

end GetAwsRegions
